import Mathlib

/-!
Verification of the D-Claw gridded max-value temporal reduction
(`dclaw2maxval_withlev` in `src/python/dclaw/maxval.py`).

The numpy arrays of the source are modelled as `List`s of per-cell records,
and each elementwise array statement becomes a per-cell operation
(`foldCell`, `finalizeCell`) lifted to the grid with `List.zipWith` /
`List.map`.  Floating-point cell values are modelled by the type `Fl`:
exact rationals extended with `nan`, `inf` and `ninf`, with IEEE-754-style
comparison semantics (every comparison involving `nan` is false) and
IEEE-style special-value propagation through the arithmetic operators,
which is exactly the behaviour the source relies on (numpy division with
`errstate` suppression, `np.isnan` replacement, comparisons with nan
yielding False, nan assignment as the missing-data marker).  Rounding of
finite values is idealised away (exact rational arithmetic); no theorem
below depends on rounding.  The square root is exact on perfect squares
(all concrete inputs evaluated below use perfect squares) and every
structural theorem is independent of the value `fsqrt` returns on finite
non-square inputs.  Refinement levels, which the source keeps in integer
arrays, are modelled as `ℤ`.
-/

namespace Maxval

/-- Cell value: a floating-point number idealised as an exact rational
extended with the IEEE special values nan, +inf and -inf. -/
inductive Fl where
  | fin : ℚ → Fl
  | nan : Fl
  | inf : Fl
  | ninf : Fl
deriving DecidableEq, Repr

/-- Model of `np.isnan` on a single value. -/
def fisnan : Fl → Bool
  | Fl.nan => true
  | _ => false

/-- Both operands are comparable (neither is nan). -/
def fcmpable (a b : Fl) : Bool := !(fisnan a) && !(fisnan b)

/-- IEEE `<`: any comparison involving nan is false. -/
def flt : Fl → Fl → Bool
  | Fl.nan, _ => false
  | _, Fl.nan => false
  | Fl.fin a, Fl.fin b => decide (a < b)
  | Fl.fin _, Fl.inf => true
  | Fl.fin _, Fl.ninf => false
  | Fl.inf, _ => false
  | Fl.ninf, Fl.ninf => false
  | Fl.ninf, _ => true

/-- IEEE `>`. -/
def fgt (a b : Fl) : Bool := flt b a

/-- IEEE `<=`: false whenever either operand is nan. -/
def fle (a b : Fl) : Bool := fcmpable a b && !(flt b a)

/-- IEEE `>=`. -/
def fge (a b : Fl) : Bool := fle b a

/-- IEEE `==`: nan is not equal to anything, including itself. -/
def feq (a b : Fl) : Bool := fcmpable a b && decide (a = b)

/-- IEEE addition on the extended values. -/
def fadd : Fl → Fl → Fl
  | Fl.nan, _ => Fl.nan
  | _, Fl.nan => Fl.nan
  | Fl.fin a, Fl.fin b => Fl.fin (a + b)
  | Fl.inf, Fl.ninf => Fl.nan
  | Fl.ninf, Fl.inf => Fl.nan
  | Fl.inf, _ => Fl.inf
  | _, Fl.inf => Fl.inf
  | Fl.ninf, _ => Fl.ninf
  | _, Fl.ninf => Fl.ninf

/-- IEEE subtraction on the extended values. -/
def fsub : Fl → Fl → Fl
  | Fl.nan, _ => Fl.nan
  | _, Fl.nan => Fl.nan
  | Fl.fin a, Fl.fin b => Fl.fin (a - b)
  | Fl.inf, Fl.inf => Fl.nan
  | Fl.ninf, Fl.ninf => Fl.nan
  | Fl.inf, _ => Fl.inf
  | Fl.ninf, _ => Fl.ninf
  | Fl.fin _, Fl.inf => Fl.ninf
  | Fl.fin _, Fl.ninf => Fl.inf

/-- IEEE multiplication on the extended values (`inf * 0 = nan`). -/
def fmul : Fl → Fl → Fl
  | Fl.nan, _ => Fl.nan
  | _, Fl.nan => Fl.nan
  | Fl.fin a, Fl.fin b => Fl.fin (a * b)
  | Fl.inf, Fl.fin b => if b = 0 then Fl.nan else if 0 < b then Fl.inf else Fl.ninf
  | Fl.fin a, Fl.inf => if a = 0 then Fl.nan else if 0 < a then Fl.inf else Fl.ninf
  | Fl.ninf, Fl.fin b => if b = 0 then Fl.nan else if 0 < b then Fl.ninf else Fl.inf
  | Fl.fin a, Fl.ninf => if a = 0 then Fl.nan else if 0 < a then Fl.ninf else Fl.inf
  | Fl.inf, Fl.inf => Fl.inf
  | Fl.ninf, Fl.ninf => Fl.inf
  | Fl.inf, Fl.ninf => Fl.ninf
  | Fl.ninf, Fl.inf => Fl.ninf

/-- IEEE division on the extended values: `0/0 = nan`, `x/0 = ±inf` for
`x ≠ 0` (our model has no signed zero, matching numpy with positive-zero
denominators), `inf/inf = nan`. -/
def fdiv : Fl → Fl → Fl
  | Fl.nan, _ => Fl.nan
  | _, Fl.nan => Fl.nan
  | Fl.fin a, Fl.fin b =>
      if b = 0 then (if a = 0 then Fl.nan else if 0 < a then Fl.inf else Fl.ninf)
      else Fl.fin (a / b)
  | Fl.fin _, Fl.inf => Fl.fin 0
  | Fl.fin _, Fl.ninf => Fl.fin 0
  | Fl.inf, Fl.fin b => if 0 ≤ b then Fl.inf else Fl.ninf
  | Fl.ninf, Fl.fin b => if 0 ≤ b then Fl.ninf else Fl.inf
  | Fl.inf, _ => Fl.nan
  | Fl.ninf, _ => Fl.nan

/-- Fuel-driven binary floor square root: `sqrt n` from `s = 2 * sqrt
(n / 4)` by checking whether `s + 1` still squares below `n`.  Structural
recursion on the fuel, so it reduces definitionally; fuel 64 is exact for
every `n < 4 ^ 64`, far beyond any value in this development. -/
def isqrtAux : ℕ → ℕ → ℕ
  | 0, _ => 0
  | fuel + 1, n =>
      if n = 0 then 0
      else
        let s := 2 * isqrtAux fuel (n / 4)
        if (s + 1) * (s + 1) ≤ n then s + 1 else s

/-- Floor integer square root, exact on perfect squares (below `4 ^ 64`). -/
def isqrt (n : ℕ) : ℕ := isqrtAux 64 n

/-- Rational square root used by the model: exact whenever numerator and
denominator are perfect squares (the only finite inputs any concrete
evaluation below takes); a floor-based approximation otherwise.  All
structural theorems are independent of the value returned on the
approximate branch. -/
def ratSqrt (q : ℚ) : ℚ := (isqrt q.num.toNat : ℚ) / (isqrt q.den : ℚ)

/-- Model of elementwise `** 0.5` / `np.sqrt`: nan for negative finite
numbers and for nan, inf for inf. -/
def fsqrt : Fl → Fl
  | Fl.nan => Fl.nan
  | Fl.inf => Fl.inf
  | Fl.ninf => Fl.nan
  | Fl.fin q => if q < 0 then Fl.nan else Fl.fin (ratSqrt q)

/-- One cell of one timestep raster: bands 1-4 and 8-9 of the fortq tif
(`h`, `hu`, `hv`, `hm`, `eta`, `level`) as read in the fold loop. -/
structure FrameCell where
  h : Fl
  hu : Fl
  hv : Fl
  hm : Fl
  eta : Fl
  level : ℤ
deriving DecidableEq, Repr

/-- One timestep: the scalar time from the companion fort.t file, the cell
size `dx` from the raster transform, and the per-cell bands. -/
structure Frame where
  time : Fl
  dx : Fl
  cells : List FrameCell
deriving DecidableEq, Repr

/-- The per-cell summary state: the running best value and recording level
for each tracked quantity, the max level seen anywhere, and the three time
arrays, exactly the arrays allocated at the top of
`dclaw2maxval_withlev`. -/
@[ext]
structure CellState where
  h_max : Fl
  h_min : Fl
  m_max : Fl
  vel_max : Fl
  mom_max : Fl
  eta_max : Fl
  lev_max : ℤ
  froude_max : Fl
  h_max_lev : ℤ
  h_min_lev : ℤ
  m_max_lev : ℤ
  vel_max_lev : ℤ
  mom_max_lev : ℤ
  eta_max_lev : ℤ
  froude_max_lev : ℤ
  arrival_time : Fl
  eta_max_time : Fl
  vel_max_time : Fl
deriving DecidableEq, Repr

/-- Initial per-cell state: zeros for the max accumulators, the
`hmin_fill = 99999.0` sentinel for `h_min`, level 0 for all recording
levels, and the `-1` sentinel for the three time arrays. -/
def initCell : CellState where
  h_max := Fl.fin 0
  h_min := Fl.fin 99999
  m_max := Fl.fin 0
  vel_max := Fl.fin 0
  mom_max := Fl.fin 0
  eta_max := Fl.fin 0
  lev_max := 0
  froude_max := Fl.fin 0
  h_max_lev := 0
  h_min_lev := 0
  m_max_lev := 0
  vel_max_lev := 0
  mom_max_lev := 0
  eta_max_lev := 0
  froude_max_lev := 0
  arrival_time := Fl.fin (-1)
  eta_max_time := Fl.fin (-1)
  vel_max_time := Fl.fin (-1)

/-- Placeholder cell used only as the default of total `List.getD`
lookups; every theorem constrains the index to be in bounds. -/
def dummyCell : FrameCell where
  h := Fl.fin 0
  hu := Fl.fin 0
  hv := Fl.fin 0
  hm := Fl.fin 0
  eta := Fl.fin 0
  level := 0

/-- Derived solid fraction: `m = hm / h` with `m[np.isnan(m)] = 0`. -/
def mOf (c : FrameCell) : Fl :=
  let m0 := fdiv c.hm c.h
  if fisnan m0 then Fl.fin 0 else m0

/-- Derived velocity: `vel = ((hu/h)**2 + (hv/h)**2) ** 0.5` with
`vel[np.isnan(vel)] = 0`. -/
def velOf (c : FrameCell) : Fl :=
  let v0 := fsqrt (fadd (fmul (fdiv c.hu c.h) (fdiv c.hu c.h))
                        (fmul (fdiv c.hv c.h) (fdiv c.hv c.h)))
  if fisnan v0 then Fl.fin 0 else v0

/-- Derived froude number: `froude = vel / np.sqrt(9.81 * h)` (no nan
replacement is applied to it in the source). -/
def froudeOf (c : FrameCell) : Fl :=
  fdiv (velOf c) (fsqrt (fmul (Fl.fin (981 / 100)) c.h))

/-- Derived density: `density = (1.0 - m) * rho_f + (m * rho_s)`. -/
def densityOf (rho_f rho_s : Fl) (c : FrameCell) : Fl :=
  fadd (fmul (fsub (Fl.fin 1) (mOf c)) rho_f) (fmul (mOf c) rho_s)

/-- Derived momentum: `mom = (h * dx * dx) * density * vel`, with the
source's left-associated multiplication order. -/
def momOf (rho_f rho_s dx : Fl) (c : FrameCell) : Fl :=
  fmul (fmul (fmul (fmul c.h dx) dx) (densityOf rho_f rho_s c)) (velOf c)

/-- One cell of one iteration of the fold loop of `dclaw2maxval_withlev`
(source lines 337-415), in source statement order: derived quantities,
`lev_max` update, the seven overwrite masks, recording-level updates,
arrival detection, value updates, and the peak-time recency re-arm.
`maxlevel` is the grid-wide `level.max()` of this frame. -/
def foldCell (rho_f rho_s dx : Fl) (maxlevel : ℤ) (time : Fl)
    (c : FrameCell) (s : CellState) : CellState :=
  let m := mOf c
  let vel := velOf c
  let froude := froudeOf c
  let mom := momOf rho_f rho_s dx c
  let ov_eta := (decide (s.eta_max_lev ≤ c.level) && fgt c.eta s.eta_max) ||
    decide (s.eta_max_lev < c.level)
  let ov_h_max := (decide (s.h_max_lev ≤ c.level) && fgt c.h s.h_max) ||
    decide (s.h_max_lev < c.level)
  let ov_h_min := (decide (s.h_min_lev ≤ c.level) && flt c.h s.h_min) ||
    decide (s.h_min_lev < c.level)
  let ov_m := (decide (s.m_max_lev ≤ c.level) && fgt m s.m_max) ||
    decide (s.m_max_lev < c.level)
  let ov_vel := (decide (s.vel_max_lev ≤ c.level) && fgt vel s.vel_max) ||
    decide (s.vel_max_lev < c.level)
  let ov_mom := (decide (s.mom_max_lev ≤ c.level) && fgt mom s.mom_max) ||
    decide (s.mom_max_lev < c.level)
  let ov_froude := (decide (s.froude_max_lev ≤ c.level) && fgt froude s.froude_max) ||
    decide (s.froude_max_lev < c.level)
  let ov_arrival := fgt c.eta (Fl.fin (1 / 100)) && flt s.arrival_time (Fl.fin 0) &&
    decide (c.level = maxlevel)
  let arrival' := if ov_arrival then time else s.arrival_time
  let eta_t1 := if ov_arrival then time else s.eta_max_time
  let vel_t1 := if ov_arrival then time else s.vel_max_time
  let not_super_late := flt (fsub time eta_t1) (Fl.fin 60) && fge arrival' (Fl.fin 0)
  { h_max := if ov_h_max then c.h else s.h_max
    h_min := if ov_h_min then c.h else s.h_min
    m_max := if ov_m then m else s.m_max
    vel_max := if ov_vel then vel else s.vel_max
    mom_max := if ov_mom then mom else s.mom_max
    eta_max := if ov_eta then c.eta else s.eta_max
    lev_max := if s.lev_max < c.level then c.level else s.lev_max
    froude_max := if ov_froude then froude else s.froude_max
    h_max_lev := if ov_h_max then c.level else s.h_max_lev
    h_min_lev := if ov_h_min then c.level else s.h_min_lev
    m_max_lev := if ov_m then c.level else s.m_max_lev
    vel_max_lev := if ov_vel then c.level else s.vel_max_lev
    mom_max_lev := if ov_mom then c.level else s.mom_max_lev
    eta_max_lev := if ov_eta then c.level else s.eta_max_lev
    froude_max_lev := if ov_froude then c.level else s.froude_max_lev
    arrival_time := arrival'
    eta_max_time := if ov_eta && not_super_late then time else eta_t1
    vel_max_time := if ov_vel && not_super_late then time else vel_t1 }

/-- Per-cell finalization (source lines 417-430): mask the never-inundated
cells, mask `h_min` where it equals 0, and mask any still-negative time
value. -/
def finalizeCell (s : CellState) : CellState :=
  let never_inundated := flt s.h_max (Fl.fin (1 / 100000))
  let eta_t1 := if never_inundated then Fl.nan else s.eta_max_time
  let vel_t1 := if never_inundated then Fl.nan else s.vel_max_time
  let arr_t1 := if never_inundated then Fl.nan else s.arrival_time
  { s with
    h_max := if never_inundated then Fl.nan else s.h_max
    h_min := if feq s.h_min (Fl.fin 0) then Fl.nan else s.h_min
    m_max := if never_inundated then Fl.nan else s.m_max
    vel_max := if never_inundated then Fl.nan else s.vel_max
    mom_max := if never_inundated then Fl.nan else s.mom_max
    froude_max := if never_inundated then Fl.nan else s.froude_max
    eta_max_time := if flt eta_t1 (Fl.fin 0) then Fl.nan else eta_t1
    vel_max_time := if flt vel_t1 (Fl.fin 0) then Fl.nan else vel_t1
    arrival_time := if flt arr_t1 (Fl.fin 0) then Fl.nan else arr_t1 }

/-- Grid-wide `level.max()` of a frame (levels are non-negative, so the
fold from 0 computes the maximum of any non-empty grid). -/
def maxLevelOf (f : Frame) : ℤ :=
  f.cells.foldl (fun a c => max a c.level) 0

/-- One iteration of the file loop: fold one frame into the summary state,
cell by cell. -/
def foldGrid (rho_f rho_s : Fl) (s : List CellState) (f : Frame) : List CellState :=
  List.zipWith (foldCell rho_f rho_s f.dx (maxLevelOf f) f.time) f.cells s

/-- The whole file loop: fold the frames in order. -/
def foldGridSeq (rho_f rho_s : Fl) (s : List CellState) (fs : List Frame) : List CellState :=
  fs.foldl (foldGrid rho_f rho_s) s

/-- Grid finalization: the per-cell masking applied to every cell. -/
def finalizeGrid (s : List CellState) : List CellState :=
  s.map finalizeCell

/-- The reduction `dclaw2maxval_withlev`: with no input rasters it raises
`ValueError("no files")` before touching any summary state (source lines
279-281); otherwise it allocates the summary arrays with the first file's
dimensions, folds every frame in order, and finalizes. -/
def dclaw2maxval (rho_f rho_s : Fl) (frames : List Frame) : Except String (List CellState) :=
  match frames with
  | [] => Except.error "no files"
  | f :: _ =>
      Except.ok (finalizeGrid
        (foldGridSeq rho_f rho_s (List.replicate f.cells.length initCell) frames))

/-- The claim's two-clause level-precedence overwrite condition, as a
proposition: the frame's level `lev` may overwrite a record held at level
`recLev` exactly when it is at least as fine and the value comparison
`wins`, or it is strictly finer. -/
abbrev overwriteFired (lev recLev : ℤ) (wins : Bool) : Prop :=
  (recLev ≤ lev ∧ wins = true) ∨ recLev < lev

/-- The arrival-detection condition of the fold, as a proposition: surface
elevation above 0.01, arrival time still negative, and the cell's level
equal to the frame's grid-wide maximum level. -/
abbrev arrivalFired (maxlevel : ℤ) (c : FrameCell) (s : CellState) : Prop :=
  fgt c.eta (Fl.fin (1 / 100)) = true ∧ flt s.arrival_time (Fl.fin 0) = true ∧
    c.level = maxlevel

/-- Pointwise order on the seven per-quantity recording levels of two
cell states. -/
def recLevLe (s t : CellState) : Prop :=
  s.h_max_lev ≤ t.h_max_lev ∧ s.h_min_lev ≤ t.h_min_lev ∧
    s.m_max_lev ≤ t.m_max_lev ∧ s.vel_max_lev ≤ t.vel_max_lev ∧
    s.mom_max_lev ≤ t.mom_max_lev ∧ s.eta_max_lev ≤ t.eta_max_lev ∧
    s.froude_max_lev ≤ t.froude_max_lev

/-- Characterization of arrival time following the claim's words: the time
of the first frame, in processing order, whose cell `i` has surface
elevation above 0.01 at the frame's grid-wide maximum level; the `-1`
sentinel if no frame qualifies. -/
def specFirstArrivalTime (i : ℕ) : List Frame → Fl
  | [] => Fl.fin (-1)
  | f :: rest =>
      let c := f.cells.getD i dummyCell
      if fgt c.eta (Fl.fin (1 / 100)) && decide (c.level = maxLevelOf f) then f.time
      else specFirstArrivalTime i rest

/-- Zero-depth cell with all flux components zero. -/
def zeroDepthCell : FrameCell where
  h := Fl.fin 0
  hu := Fl.fin 0
  hv := Fl.fin 0
  hm := Fl.fin 0
  eta := Fl.fin 0
  level := 2

/-- Zero-depth cell with nonzero solid flux: `hm/h = 1/0 = inf`. -/
def hmPosZeroDepthCell : FrameCell where
  h := Fl.fin 0
  hu := Fl.fin 0
  hv := Fl.fin 0
  hm := Fl.fin 1
  eta := Fl.fin 0
  level := 2

/-- Zero-depth cell with both momentum fluxes nonzero:
`(1/0)^2 + (1/0)^2 = inf`. -/
def fluxPosZeroDepthCell : FrameCell where
  h := Fl.fin 0
  hu := Fl.fin 1
  hv := Fl.fin 1
  hm := Fl.fin 0
  eta := Fl.fin 0
  level := 2

/-- Wet single-cell frame at level 1 (counterexample run, frame 1). -/
def c3Frame1 : Frame where
  time := Fl.fin 0
  dx := Fl.fin 1
  cells := [{ h := Fl.fin 1, hu := Fl.fin 0, hv := Fl.fin 0, hm := Fl.fin 0,
              eta := Fl.fin 0, level := 1 }]

/-- Dry single-cell frame at the strictly finer level 2 (counterexample
run, frame 2): its froude value is nan. -/
def c3Frame2 : Frame where
  time := Fl.fin 1
  dx := Fl.fin 1
  cells := [zeroDepthCell]

/-- Wet single-cell frame at level 2 (counterexample run, frame 3): its
finite froude value loses the nan comparison, so the nan record stays. -/
def c3Frame3 : Frame where
  time := Fl.fin 2
  dx := Fl.fin 1
  cells := [{ h := Fl.fin 1, hu := Fl.fin 0, hv := Fl.fin 0, hm := Fl.fin 0,
              eta := Fl.fin 0, level := 2 }]

/-- Single-cell frame whose depth 100000 exceeds the `h_min` fill
sentinel, so `h_min` is never written during the run. -/
def hminNoWriteFrame : Frame where
  time := Fl.fin 0
  dx := Fl.fin 1
  cells := [{ h := Fl.fin 100000, hu := Fl.fin 0, hv := Fl.fin 0, hm := Fl.fin 0,
              eta := Fl.fin 0, level := 0 }]

/-- Single-cell frame that writes a depth-minimum of 0 at level 1. -/
def hminZeroFrame : Frame where
  time := Fl.fin 0
  dx := Fl.fin 1
  cells := [{ h := Fl.fin 0, hu := Fl.fin 0, hv := Fl.fin 0, hm := Fl.fin 0,
              eta := Fl.fin 0, level := 1 }]

/-- Coarse observation: level 1, value 5 for depth and surface
elevation. -/
def c6coarse : FrameCell where
  h := Fl.fin 5
  hu := Fl.fin 0
  hv := Fl.fin 0
  hm := Fl.fin 0
  eta := Fl.fin 5
  level := 1

/-- Fine observation: level 2, value 3 for depth and surface elevation. -/
def c6fine : FrameCell where
  h := Fl.fin 3
  hu := Fl.fin 0
  hv := Fl.fin 0
  hm := Fl.fin 0
  eta := Fl.fin 3
  level := 2

/-- Single-cell frame that satisfies the arrival condition at time 7
(used by the witnesses). -/
def wFrame : Frame where
  time := Fl.fin 7
  dx := Fl.fin 1
  cells := [{ h := Fl.fin 1, hu := Fl.fin 0, hv := Fl.fin 0, hm := Fl.fin 0,
              eta := Fl.fin 1, level := 1 }]

@[simp]
lemma flt_nan_left (x : Fl) : flt Fl.nan x = false := by cases x <;> rfl

@[simp]
lemma flt_nan_right (x : Fl) : flt x Fl.nan = false := by cases x <;> rfl

@[simp]
lemma feq_nan_left (x : Fl) : feq Fl.nan x = false := rfl

@[simp]
lemma fadd_nan_left (x : Fl) : fadd Fl.nan x = Fl.nan := by cases x <;> rfl

@[simp]
lemma fadd_nan_right (x : Fl) : fadd x Fl.nan = Fl.nan := by cases x <;> rfl

@[simp]
lemma fmul_nan_left (x : Fl) : fmul Fl.nan x = Fl.nan := by cases x <;> rfl

lemma fge_imp_flt_false (a b : Fl) (h : fge a b = true) : flt a b = false := by
  unfold fge fle at h
  simp only [Bool.and_eq_true, Bool.not_eq_true'] at h
  exact h.2

lemma flt_mask (a b : Fl) : flt (if flt a b then Fl.nan else a) b = false := by
  cases h : flt a b <;> simp [h]

lemma feq_mask (a z : Fl) : feq (if feq a z then Fl.nan else a) z = false := by
  cases h : feq a z <;> simp [h]

lemma ovmask_if {α : Sort u_1} (L l : ℤ) (g : Bool) (x y : α) :
    (if (decide (l ≤ L) && g) || decide (l < L) then x else y) =
      if overwriteFired L l g then x else y := by
  by_cases h1 : l ≤ L <;> by_cases h2 : l < L <;> cases g <;>
    simp [overwriteFired, h1, h2]

lemma ovIff (L l : ℤ) (g : Bool) :
    (((decide (l ≤ L) && g) || decide (l < L)) = true) ↔ overwriteFired L l g := by
  simp [overwriteFired]

/-- C1.  In every fold, for each of the seven tracked quantities
(surface-elevation max, depth max, depth min, solid-fraction max,
velocity max, momentum-flux max, froude max; comparison `>` for max-type,
`<` for depth-min), the cell's recorded value and recorded level are both
overwritten by the frame's value and level exactly when
`(frame.level ≥ Q_level ∧ new value wins) ∨ frame.level > Q_level`.  In
particular a strictly finer level always overwrites regardless of value
(the right disjunct), and a strictly coarser level never overwrites
(both disjuncts fail). -/
theorem overwrite_level_precedence (rf rs dx : Fl) (ml : ℤ) (t : Fl)
    (c : FrameCell) (s : CellState) :
    ((foldCell rf rs dx ml t c s).eta_max =
      if overwriteFired c.level s.eta_max_lev (fgt c.eta s.eta_max) then c.eta
      else s.eta_max) ∧
    ((foldCell rf rs dx ml t c s).eta_max_lev =
      if overwriteFired c.level s.eta_max_lev (fgt c.eta s.eta_max) then c.level
      else s.eta_max_lev) ∧
    ((foldCell rf rs dx ml t c s).h_max =
      if overwriteFired c.level s.h_max_lev (fgt c.h s.h_max) then c.h
      else s.h_max) ∧
    ((foldCell rf rs dx ml t c s).h_max_lev =
      if overwriteFired c.level s.h_max_lev (fgt c.h s.h_max) then c.level
      else s.h_max_lev) ∧
    ((foldCell rf rs dx ml t c s).h_min =
      if overwriteFired c.level s.h_min_lev (flt c.h s.h_min) then c.h
      else s.h_min) ∧
    ((foldCell rf rs dx ml t c s).h_min_lev =
      if overwriteFired c.level s.h_min_lev (flt c.h s.h_min) then c.level
      else s.h_min_lev) ∧
    ((foldCell rf rs dx ml t c s).m_max =
      if overwriteFired c.level s.m_max_lev (fgt (mOf c) s.m_max) then mOf c
      else s.m_max) ∧
    ((foldCell rf rs dx ml t c s).m_max_lev =
      if overwriteFired c.level s.m_max_lev (fgt (mOf c) s.m_max) then c.level
      else s.m_max_lev) ∧
    ((foldCell rf rs dx ml t c s).vel_max =
      if overwriteFired c.level s.vel_max_lev (fgt (velOf c) s.vel_max) then velOf c
      else s.vel_max) ∧
    ((foldCell rf rs dx ml t c s).vel_max_lev =
      if overwriteFired c.level s.vel_max_lev (fgt (velOf c) s.vel_max) then c.level
      else s.vel_max_lev) ∧
    ((foldCell rf rs dx ml t c s).mom_max =
      if overwriteFired c.level s.mom_max_lev (fgt (momOf rf rs dx c) s.mom_max)
      then momOf rf rs dx c else s.mom_max) ∧
    ((foldCell rf rs dx ml t c s).mom_max_lev =
      if overwriteFired c.level s.mom_max_lev (fgt (momOf rf rs dx c) s.mom_max)
      then c.level else s.mom_max_lev) ∧
    ((foldCell rf rs dx ml t c s).froude_max =
      if overwriteFired c.level s.froude_max_lev (fgt (froudeOf c) s.froude_max)
      then froudeOf c else s.froude_max) ∧
    ((foldCell rf rs dx ml t c s).froude_max_lev =
      if overwriteFired c.level s.froude_max_lev (fgt (froudeOf c) s.froude_max)
      then c.level else s.froude_max_lev) :=
  ⟨ovmask_if c.level s.eta_max_lev (fgt c.eta s.eta_max) c.eta s.eta_max,
   ovmask_if c.level s.eta_max_lev (fgt c.eta s.eta_max) c.level s.eta_max_lev,
   ovmask_if c.level s.h_max_lev (fgt c.h s.h_max) c.h s.h_max,
   ovmask_if c.level s.h_max_lev (fgt c.h s.h_max) c.level s.h_max_lev,
   ovmask_if c.level s.h_min_lev (flt c.h s.h_min) c.h s.h_min,
   ovmask_if c.level s.h_min_lev (flt c.h s.h_min) c.level s.h_min_lev,
   ovmask_if c.level s.m_max_lev (fgt (mOf c) s.m_max) (mOf c) s.m_max,
   ovmask_if c.level s.m_max_lev (fgt (mOf c) s.m_max) c.level s.m_max_lev,
   ovmask_if c.level s.vel_max_lev (fgt (velOf c) s.vel_max) (velOf c) s.vel_max,
   ovmask_if c.level s.vel_max_lev (fgt (velOf c) s.vel_max) c.level s.vel_max_lev,
   ovmask_if c.level s.mom_max_lev (fgt (momOf rf rs dx c) s.mom_max)
     (momOf rf rs dx c) s.mom_max,
   ovmask_if c.level s.mom_max_lev (fgt (momOf rf rs dx c) s.mom_max)
     c.level s.mom_max_lev,
   ovmask_if c.level s.froude_max_lev (fgt (froudeOf c) s.froude_max)
     (froudeOf c) s.froude_max,
   ovmask_if c.level s.froude_max_lev (fgt (froudeOf c) s.froude_max)
     c.level s.froude_max_lev⟩

lemma foldCell_eta_max_time (rf rs dx : Fl) (ml : ℤ) (t : Fl)
    (c : FrameCell) (s : CellState) :
    (foldCell rf rs dx ml t c s).eta_max_time =
      if ((decide (s.eta_max_lev ≤ c.level) && fgt c.eta s.eta_max) ||
            decide (s.eta_max_lev < c.level)) &&
          (flt (fsub t (if fgt c.eta (Fl.fin (1 / 100)) &&
                flt s.arrival_time (Fl.fin 0) && decide (c.level = ml)
              then t else s.eta_max_time)) (Fl.fin 60) &&
            fge (if fgt c.eta (Fl.fin (1 / 100)) &&
                flt s.arrival_time (Fl.fin 0) && decide (c.level = ml)
              then t else s.arrival_time) (Fl.fin 0))
      then t
      else (if fgt c.eta (Fl.fin (1 / 100)) &&
            flt s.arrival_time (Fl.fin 0) && decide (c.level = ml)
        then t else s.eta_max_time) := rfl

lemma foldCell_vel_max_time (rf rs dx : Fl) (ml : ℤ) (t : Fl)
    (c : FrameCell) (s : CellState) :
    (foldCell rf rs dx ml t c s).vel_max_time =
      if ((decide (s.vel_max_lev ≤ c.level) && fgt (velOf c) s.vel_max) ||
            decide (s.vel_max_lev < c.level)) &&
          (flt (fsub t (if fgt c.eta (Fl.fin (1 / 100)) &&
                flt s.arrival_time (Fl.fin 0) && decide (c.level = ml)
              then t else s.eta_max_time)) (Fl.fin 60) &&
            fge (if fgt c.eta (Fl.fin (1 / 100)) &&
                flt s.arrival_time (Fl.fin 0) && decide (c.level = ml)
              then t else s.arrival_time) (Fl.fin 0))
      then t
      else (if fgt c.eta (Fl.fin (1 / 100)) &&
            flt s.arrival_time (Fl.fin 0) && decide (c.level = ml)
        then t else s.vel_max_time) := rfl

/-- C5.  In each fold, eta-peak-time (resp. velocity-peak-time) is re-armed
to the frame's time exactly at cells where the step-4 overwrite mask for
surface-elevation-max (resp. velocity-max) fired, `frame.time -
eta_peak_time < 60` and `arrival_time ≥ 0` — the recency test reading the
time fields as updated by the arrival step, and reading `eta_peak_time`
(not the velocity peak) for both quantities, as the source does.  At all
other cells this step leaves the peak time at its post-arrival-step
value. -/
theorem peak_time_rearm (rf rs dx : Fl) (ml : ℤ) (t : Fl)
    (c : FrameCell) (s : CellState) :
    ((foldCell rf rs dx ml t c s).eta_max_time =
      if overwriteFired c.level s.eta_max_lev (fgt c.eta s.eta_max) ∧
          flt (fsub t (if arrivalFired ml c s then t else s.eta_max_time))
            (Fl.fin 60) = true ∧
          fge (if arrivalFired ml c s then t else s.arrival_time)
            (Fl.fin 0) = true
      then t
      else (if arrivalFired ml c s then t else s.eta_max_time)) ∧
    ((foldCell rf rs dx ml t c s).vel_max_time =
      if overwriteFired c.level s.vel_max_lev (fgt (velOf c) s.vel_max) ∧
          flt (fsub t (if arrivalFired ml c s then t else s.eta_max_time))
            (Fl.fin 60) = true ∧
          fge (if arrivalFired ml c s then t else s.arrival_time)
            (Fl.fin 0) = true
      then t
      else (if arrivalFired ml c s then t else s.vel_max_time)) := by
  have hiff : (fgt c.eta (Fl.fin (1 / 100)) && flt s.arrival_time (Fl.fin 0) &&
      decide (c.level = ml)) = true ↔ arrivalFired ml c s := by
    simp [arrivalFired, and_assoc]
  by_cases hA : arrivalFired ml c s
  · have hAb : (fgt c.eta (Fl.fin (1 / 100)) && flt s.arrival_time (Fl.fin 0) &&
        decide (c.level = ml)) = true := hiff.mpr hA
    constructor
    · rw [foldCell_eta_max_time, hAb]
      simp [if_pos hA]
    · rw [foldCell_vel_max_time, hAb]
      simp [if_pos hA]
  · have hAb : (fgt c.eta (Fl.fin (1 / 100)) && flt s.arrival_time (Fl.fin 0) &&
        decide (c.level = ml)) = false := by
      rcases Bool.eq_false_or_eq_true (fgt c.eta (Fl.fin (1 / 100)) &&
          flt s.arrival_time (Fl.fin 0) && decide (c.level = ml)) with h | h
      · exact absurd (hiff.mp h) hA
      · exact h
    constructor
    · rw [foldCell_eta_max_time, hAb]
      simp only [Bool.false_eq_true, if_false, hA, if_neg hA]
      exact if_congr (by simp [Bool.and_eq_true, ovIff]) rfl rfl
    · rw [foldCell_vel_max_time, hAb]
      simp only [Bool.false_eq_true, if_false, hA, if_neg hA]
      exact if_congr (by simp [Bool.and_eq_true, ovIff]) rfl rfl

/-- C2 (amended).  What `finalize` does at each cell: every quantity in
the never-inundated set (depth-max, solid-fraction-max, velocity-max,
momentum-flux-max, froude-max, both peak times, arrival time) becomes nan
where the pre-finalize depth-max is below 1e-5; depth-min becomes nan
exactly where its recorded value equals 0 — a never-written cell keeps the
99999 fill sentinel, contrary to the original claim; and each time value
still negative becomes nan. -/
theorem finalize_masking (s : CellState) :
    ((finalizeCell s).h_max =
      if flt s.h_max (Fl.fin (1 / 100000)) then Fl.nan else s.h_max) ∧
    ((finalizeCell s).m_max =
      if flt s.h_max (Fl.fin (1 / 100000)) then Fl.nan else s.m_max) ∧
    ((finalizeCell s).vel_max =
      if flt s.h_max (Fl.fin (1 / 100000)) then Fl.nan else s.vel_max) ∧
    ((finalizeCell s).mom_max =
      if flt s.h_max (Fl.fin (1 / 100000)) then Fl.nan else s.mom_max) ∧
    ((finalizeCell s).froude_max =
      if flt s.h_max (Fl.fin (1 / 100000)) then Fl.nan else s.froude_max) ∧
    ((finalizeCell s).h_min =
      if feq s.h_min (Fl.fin 0) then Fl.nan else s.h_min) ∧
    ((finalizeCell s).eta_max_time =
      if flt s.h_max (Fl.fin (1 / 100000)) then Fl.nan
      else if flt s.eta_max_time (Fl.fin 0) then Fl.nan else s.eta_max_time) ∧
    ((finalizeCell s).vel_max_time =
      if flt s.h_max (Fl.fin (1 / 100000)) then Fl.nan
      else if flt s.vel_max_time (Fl.fin 0) then Fl.nan else s.vel_max_time) ∧
    ((finalizeCell s).arrival_time =
      if flt s.h_max (Fl.fin (1 / 100000)) then Fl.nan
      else if flt s.arrival_time (Fl.fin 0) then Fl.nan else s.arrival_time) := by
  refine ⟨?_, ?_, ?_, ?_, ?_, ?_, ?_, ?_, ?_⟩ <;>
    cases hni : flt s.h_max (Fl.fin (1 / 100000)) <;>
      · rw [one_div] at hni
        simp [finalizeCell, hni]

set_option maxRecDepth 2000 in
/-- C2 counterexample.  The original claim says depth-min is replaced with
the missing-data marker exactly at cells that never left the 99999 fill
sentinel.  Both directions fail on the code: a run whose only frame has
depth 100000 never writes `h_min`, yet the final raster carries the
sentinel 99999 and not nan; a run whose only frame has depth 0 writes
`h_min = 0`, yet finalize replaces that written value with nan. -/
theorem finalize_hmin_sentinel_counterexample :
    ((((dclaw2maxval (Fl.fin 1000) (Fl.fin 2700) [hminNoWriteFrame]).toOption.getD
        []).getD 0 initCell).h_min = Fl.fin 99999) ∧
    ((((dclaw2maxval (Fl.fin 1000) (Fl.fin 2700) [hminZeroFrame]).toOption.getD
        []).getD 0 initCell).h_min = Fl.nan) ∧
    Fl.fin 99999 ≠ Fl.nan := by
  refine ⟨?_, ?_, ?_⟩
  · with_unfolding_all rfl
  · with_unfolding_all rfl
  · decide

lemma sq_div_zero (r : ℚ) (hr : r ≠ 0) :
    fmul (fdiv (Fl.fin r) (Fl.fin 0)) (fdiv (Fl.fin r) (Fl.fin 0)) = Fl.inf := by
  rcases hr.lt_or_lt with h | h
  · have hd : fdiv (Fl.fin r) (Fl.fin 0) = Fl.ninf := by
      simp [fdiv, hr, h.not_lt]
    rw [hd]; rfl
  · have hd : fdiv (Fl.fin r) (Fl.fin 0) = Fl.inf := by
      simp [fdiv, hr, h]
    rw [hd]; rfl

/-- C3 (amended).  Derived quantities at a zero-depth cell: solid fraction
is 0 when the solid flux is 0 (the nan from `0/0` is replaced by 0) and
+inf when the solid flux is a positive finite value (`r/0`, with
`np.isnan(inf)` false so no replacement applies); velocity is 0 whenever
either momentum-flux component is 0 (the nan from that component's `0/0`
poisons the sum and is replaced by 0) and +inf when both components are
nonzero finite values (`inf + inf`); froude is nan whenever either
component is 0 (`0 / sqrt(9.81*0) = 0/0`, with no replacement applied to
froude) and +inf when both are nonzero finite (`inf/0`).  No division
error is raised in any of these cases. -/
theorem zero_depth_derived (c : FrameCell) (hh : c.h = Fl.fin 0) :
    (c.hm = Fl.fin 0 → mOf c = Fl.fin 0) ∧
    (∀ r : ℚ, 0 < r → c.hm = Fl.fin r → mOf c = Fl.inf) ∧
    (c.hu = Fl.fin 0 ∨ c.hv = Fl.fin 0 →
      velOf c = Fl.fin 0 ∧ froudeOf c = Fl.nan) ∧
    (∀ p q : ℚ, p ≠ 0 → q ≠ 0 → c.hu = Fl.fin p → c.hv = Fl.fin q →
      velOf c = Fl.inf ∧ froudeOf c = Fl.inf) := by
  obtain ⟨ch, chu, chv, chm, ce, cl⟩ := c
  dsimp only at hh ⊢
  subst hh
  have h1 : fdiv (Fl.fin 0) (Fl.fin 0) = Fl.nan := rfl
  refine ⟨?_, ?_, ?_, ?_⟩
  · intro h2
    subst h2
    rfl
  · intro r hr h2
    subst h2
    have hd : fdiv (Fl.fin r) (Fl.fin 0) = Fl.inf := by
      simp [fdiv, hr.ne', hr]
    simp [mOf, hd, fisnan]
  · intro h3
    rcases h3 with h3 | h3 <;> subst h3
    · have hvel : velOf ⟨Fl.fin 0, Fl.fin 0, chv, chm, ce, cl⟩ = Fl.fin 0 := by
        simp [velOf, h1, fsqrt, fisnan]
      refine ⟨hvel, ?_⟩
      simp only [froudeOf, hvel]
      with_unfolding_all rfl
    · have hvel : velOf ⟨Fl.fin 0, chu, Fl.fin 0, chm, ce, cl⟩ = Fl.fin 0 := by
        simp [velOf, h1, fsqrt, fisnan]
      refine ⟨hvel, ?_⟩
      simp only [froudeOf, hvel]
      with_unfolding_all rfl
  · intro p q hp hq hup hvq
    subst hup hvq
    have hu2 := sq_div_zero p hp
    have hv2 := sq_div_zero q hq
    have hvel : velOf ⟨Fl.fin 0, Fl.fin p, Fl.fin q, chm, ce, cl⟩ = Fl.inf := by
      simp [velOf, hu2, hv2, fadd, fsqrt, fisnan]
    refine ⟨hvel, ?_⟩
    simp only [froudeOf, hvel]
    with_unfolding_all rfl

theorem zero_depth_derived_witness :
    (mOf zeroDepthCell = Fl.fin 0) ∧
    (velOf zeroDepthCell = Fl.fin 0 ∧ froudeOf zeroDepthCell = Fl.nan) ∧
    (mOf hmPosZeroDepthCell = Fl.inf) ∧
    (velOf fluxPosZeroDepthCell = Fl.inf ∧
      froudeOf fluxPosZeroDepthCell = Fl.inf) :=
  ⟨(zero_depth_derived zeroDepthCell rfl).1 rfl,
   (zero_depth_derived zeroDepthCell rfl).2.2.1 (Or.inl rfl),
   (zero_depth_derived hmPosZeroDepthCell rfl).2.1 1 one_pos rfl,
   (zero_depth_derived fluxPosZeroDepthCell rfl).2.2.2 1 1 one_ne_zero
     one_ne_zero rfl rfl⟩

set_option maxRecDepth 2000 in
/-- C3 counterexample.  The claim says a zero-depth cell produces froude 0
or masked and never lets a nan propagate into the summary state.  On the
code, froude at a zero-depth cell is nan, a zero-depth cell with nonzero
solid flux gives solid_fraction inf, one with both momentum fluxes nonzero
gives velocity inf, and in a three-frame run the zero-depth frame's nan is
copied into `froude_max` by the strictly-finer-level clause and survives
finalization at a cell whose final depth-max is 1 (inundated, so not
masked). -/
theorem zero_depth_froude_nan_counterexample :
    froudeOf zeroDepthCell = Fl.nan ∧
    mOf hmPosZeroDepthCell = Fl.inf ∧
    velOf fluxPosZeroDepthCell = Fl.inf ∧
    ((((dclaw2maxval (Fl.fin 1000) (Fl.fin 2700)
        [c3Frame1, c3Frame2, c3Frame3]).toOption.getD []).getD 0
        initCell).froude_max = Fl.nan) ∧
    ((((dclaw2maxval (Fl.fin 1000) (Fl.fin 2700)
        [c3Frame1, c3Frame2, c3Frame3]).toOption.getD []).getD 0
        initCell).h_max = Fl.fin 1) := by
  refine ⟨?_, ?_, ?_, ?_, ?_⟩ <;> with_unfolding_all rfl

set_option maxRecDepth 2000 in
/-- C6.  Level precedence is order-independent in the claim's scenario:
one observation at level 1 with value 5 and one at level 2 with value 3
(instantiated here for the surface-elevation and depth quantities of
actual frames), folded in either order from the initial state, leave
value 3 recorded at level 2 — the finer level wins regardless of value. -/
theorem level_precedence_order_independent :
    (((foldCell (Fl.fin 1000) (Fl.fin 2700) (Fl.fin 1) 2 (Fl.fin 1) c6fine
        (foldCell (Fl.fin 1000) (Fl.fin 2700) (Fl.fin 1) 1 (Fl.fin 0) c6coarse
          initCell)).eta_max = Fl.fin 3) ∧
      ((foldCell (Fl.fin 1000) (Fl.fin 2700) (Fl.fin 1) 2 (Fl.fin 1) c6fine
        (foldCell (Fl.fin 1000) (Fl.fin 2700) (Fl.fin 1) 1 (Fl.fin 0) c6coarse
          initCell)).eta_max_lev = 2) ∧
      ((foldCell (Fl.fin 1000) (Fl.fin 2700) (Fl.fin 1) 2 (Fl.fin 1) c6fine
        (foldCell (Fl.fin 1000) (Fl.fin 2700) (Fl.fin 1) 1 (Fl.fin 0) c6coarse
          initCell)).h_max = Fl.fin 3) ∧
      ((foldCell (Fl.fin 1000) (Fl.fin 2700) (Fl.fin 1) 2 (Fl.fin 1) c6fine
        (foldCell (Fl.fin 1000) (Fl.fin 2700) (Fl.fin 1) 1 (Fl.fin 0) c6coarse
          initCell)).h_max_lev = 2)) ∧
    (((foldCell (Fl.fin 1000) (Fl.fin 2700) (Fl.fin 1) 1 (Fl.fin 1) c6coarse
        (foldCell (Fl.fin 1000) (Fl.fin 2700) (Fl.fin 1) 2 (Fl.fin 0) c6fine
          initCell)).eta_max = Fl.fin 3) ∧
      ((foldCell (Fl.fin 1000) (Fl.fin 2700) (Fl.fin 1) 1 (Fl.fin 1) c6coarse
        (foldCell (Fl.fin 1000) (Fl.fin 2700) (Fl.fin 1) 2 (Fl.fin 0) c6fine
          initCell)).eta_max_lev = 2) ∧
      ((foldCell (Fl.fin 1000) (Fl.fin 2700) (Fl.fin 1) 1 (Fl.fin 1) c6coarse
        (foldCell (Fl.fin 1000) (Fl.fin 2700) (Fl.fin 1) 2 (Fl.fin 0) c6fine
          initCell)).h_max = Fl.fin 3) ∧
      ((foldCell (Fl.fin 1000) (Fl.fin 2700) (Fl.fin 1) 1 (Fl.fin 1) c6coarse
        (foldCell (Fl.fin 1000) (Fl.fin 2700) (Fl.fin 1) 2 (Fl.fin 0) c6fine
          initCell)).h_max_lev = 2)) := by
  refine ⟨⟨?_, ?_, ?_, ?_⟩, ⟨?_, ?_, ?_, ?_⟩⟩ <;> with_unfolding_all rfl

lemma finalizeCell_idem (x : CellState) :
    finalizeCell (finalizeCell x) = finalizeCell x := by
  ext <;> simp [finalizeCell, flt_mask, feq_mask]

/-- C7.  Finalization is idempotent: applying the never-inundated /
`h_min == 0` / negative-time masking twice gives exactly the state of
applying it once (for every state, hence for every state produced by a
sequence of folds). -/
theorem finalize_idempotent (s : List CellState) :
    finalizeGrid (finalizeGrid s) = finalizeGrid s := by
  induction s with
  | nil => rfl
  | cons a l ih =>
      simp only [finalizeGrid, List.map_cons] at ih ⊢
      rw [finalizeCell_idem a, ih]

/-- C8.  With no gridded input rasters the reduction fails with
`ValueError("no files")` before folding any frame or producing any
output: the error branch is taken before the summary state is even
allocated. -/
theorem no_input_rasters_error (rf rs : Fl) :
    dclaw2maxval rf rs [] = Except.error "no files" := rfl

/-- C9.  Finalization leaves surface-elevation-max and max-level-seen
untouched at every cell — including never-inundated ones — so these two
bands are emitted exactly as accumulated by the folds. -/
theorem finalize_preserves_eta_and_lev (s : CellState) :
    (finalizeCell s).eta_max = s.eta_max ∧ (finalizeCell s).lev_max = s.lev_max :=
  ⟨rfl, rfl⟩

lemma length_foldGrid (rf rs : Fl) (s : List CellState) (f : Frame) :
    (foldGrid rf rs s f).length = min f.cells.length s.length := by
  simp [foldGrid]

lemma getD_foldGrid (rf rs : Fl) (s : List CellState) (f : Frame) (i : ℕ)
    (h1 : i < f.cells.length) (h2 : i < s.length) :
    (foldGrid rf rs s f).getD i initCell =
      foldCell rf rs f.dx (maxLevelOf f) f.time (f.cells.getD i dummyCell)
        (s.getD i initCell) := by
  have hz : i < (foldGrid rf rs s f).length := by
    rw [length_foldGrid]; exact lt_min h1 h2
  rw [List.getD_eq_getElem _ _ hz, List.getD_eq_getElem _ _ h1,
    List.getD_eq_getElem _ _ h2]
  simp only [foldGrid]
  rw [List.getElem_zipWith]

lemma length_foldGridSeq (rf rs : Fl) (n : ℕ) (fs : List Frame) :
    ∀ s : List CellState, s.length = n → (∀ f ∈ fs, f.cells.length = n) →
      (foldGridSeq rf rs s fs).length = n := by
  induction fs with
  | nil => intro s hs _; simpa [foldGridSeq] using hs
  | cons f fs ih =>
      intro s hs hf
      have h1 : (foldGrid rf rs s f).length = n := by
        rw [length_foldGrid, hf f (List.mem_cons_self f fs), hs, min_self]
      have h2 := ih (foldGrid rf rs s f) h1
        (fun g hg => hf g (List.mem_cons_of_mem f hg))
      simpa [foldGridSeq, List.foldl_cons] using h2

lemma foldCell_arrival_eq (rf rs dx : Fl) (ml : ℤ) (t : Fl)
    (c : FrameCell) (s : CellState) :
    (foldCell rf rs dx ml t c s).arrival_time =
      if fgt c.eta (Fl.fin (1 / 100)) && flt s.arrival_time (Fl.fin 0) &&
          decide (c.level = ml)
      then t else s.arrival_time := rfl

lemma seq_arrival_frozen (rf rs : Fl) (n i : ℕ) (hi : i < n) (fs : List Frame) :
    ∀ s : List CellState, s.length = n → (∀ f ∈ fs, f.cells.length = n) →
      flt ((s.getD i initCell).arrival_time) (Fl.fin 0) = false →
      ((foldGridSeq rf rs s fs).getD i initCell).arrival_time =
        (s.getD i initCell).arrival_time := by
  induction fs with
  | nil => intro s _ _ _; simp [foldGridSeq]
  | cons f fs ih =>
      intro s hs hf hfr
      have hfc : f.cells.length = n := hf f (List.mem_cons_self f fs)
      have hstep := getD_foldGrid rf rs s f i (by omega) (by omega)
      have harr : ((foldGrid rf rs s f).getD i initCell).arrival_time =
          (s.getD i initCell).arrival_time := by
        rw [hstep, foldCell_arrival_eq, hfr]
        simp
      have hlen : (foldGrid rf rs s f).length = n := by
        rw [length_foldGrid, hfc, hs, min_self]
      have h2 := ih (foldGrid rf rs s f) hlen
        (fun g hg => hf g (List.mem_cons_of_mem f hg)) (by rw [harr]; exact hfr)
      simp only [foldGridSeq, List.foldl_cons] at h2 ⊢
      rw [h2, harr]

lemma seq_arrival_unset (rf rs : Fl) (n i : ℕ) (hi : i < n) (fs : List Frame) :
    ∀ s : List CellState, s.length = n → (∀ f ∈ fs, f.cells.length = n) →
      (∀ f ∈ fs, fge f.time (Fl.fin 0) = true) →
      (s.getD i initCell).arrival_time = Fl.fin (-1) →
      ((foldGridSeq rf rs s fs).getD i initCell).arrival_time =
        specFirstArrivalTime i fs := by
  induction fs with
  | nil => intro s _ _ _ h; simpa [foldGridSeq, specFirstArrivalTime] using h
  | cons f fs ih =>
      intro s hs hf ht harr
      have hfc : f.cells.length = n := hf f (List.mem_cons_self f fs)
      have hstep := getD_foldGrid rf rs s f i (by omega) (by omega)
      have hlen : (foldGrid rf rs s f).length = n := by
        rw [length_foldGrid, hfc, hs, min_self]
      have hflt : flt ((s.getD i initCell).arrival_time) (Fl.fin 0) = true := by
        rw [harr]; decide
      by_cases hc : (fgt (f.cells.getD i dummyCell).eta (Fl.fin (1 / 100)) &&
          decide ((f.cells.getD i dummyCell).level = maxLevelOf f)) = true
      · have harr2 : ((foldGrid rf rs s f).getD i initCell).arrival_time =
            f.time := by
          rw [hstep, foldCell_arrival_eq, hflt, Bool.and_true, hc]
          rfl
        have hfr2 : flt ((foldGrid rf rs s f).getD i initCell).arrival_time
            (Fl.fin 0) = false := by
          rw [harr2]
          exact fge_imp_flt_false _ _ (ht f (List.mem_cons_self f fs))
        have hfrozen := seq_arrival_frozen rf rs n i hi fs (foldGrid rf rs s f)
          hlen (fun g hg => hf g (List.mem_cons_of_mem f hg)) hfr2
        simp only [foldGridSeq, List.foldl_cons] at hfrozen ⊢
        rw [hfrozen, harr2, specFirstArrivalTime, if_pos hc]
      · have hcf : (fgt (f.cells.getD i dummyCell).eta (Fl.fin (1 / 100)) &&
            decide ((f.cells.getD i dummyCell).level = maxLevelOf f)) = false :=
          Bool.eq_false_iff.mpr hc
        have harr2 : ((foldGrid rf rs s f).getD i initCell).arrival_time =
            Fl.fin (-1) := by
          rw [hstep, foldCell_arrival_eq, hflt, harr, Bool.and_true, hcf]
          rfl
        have h2 := ih (foldGrid rf rs s f) hlen
          (fun g hg => hf g (List.mem_cons_of_mem f hg))
          (fun g hg => ht g (List.mem_cons_of_mem f hg)) harr2
        simp only [foldGridSeq, List.foldl_cons] at h2 ⊢
        rw [h2, specFirstArrivalTime, if_neg hc]

/-- C4.  Arrival time is written at most once.  Starting from the initial
state (arrival sentinel `-1`), as long as every frame has the grid shape
and a non-negative time, the arrival time of cell `i` after folding the
whole sequence equals the time of the first frame, in processing order,
at which the cell's surface elevation exceeds 0.01 while its level equals
the frame's grid-wide maximum level — and the `-1` sentinel if no frame
ever qualifies.  In particular no later qualifying frame changes the
recorded arrival time. -/
theorem arrival_time_written_once (rf rs : Fl) (n i : ℕ) (fs : List Frame)
    (hi : i < n) (hlen : ∀ f ∈ fs, f.cells.length = n)
    (ht : ∀ f ∈ fs, fge f.time (Fl.fin 0) = true) :
    ((foldGridSeq rf rs (List.replicate n initCell) fs).getD i
      initCell).arrival_time = specFirstArrivalTime i fs := by
  apply seq_arrival_unset rf rs n i hi fs _ (List.length_replicate n initCell)
    hlen ht
  rw [List.getD_eq_getElem _ _ (by simpa using hi), List.getElem_replicate]
  rfl

theorem arrival_time_written_once_witness :
    ((foldGridSeq (Fl.fin 1000) (Fl.fin 2700) (List.replicate 1 initCell)
      [wFrame]).getD 0 initCell).arrival_time = specFirstArrivalTime 0 [wFrame] :=
  arrival_time_written_once (Fl.fin 1000) (Fl.fin 2700) 1 0 [wFrame]
    (by decide)
    (by intro f hf; rw [List.mem_singleton] at hf; rw [hf]; rfl)
    (by intro f hf; rw [List.mem_singleton] at hf; rw [hf]; decide)

lemma ov_true_le (L l : ℤ) (g : Bool)
    (h : ((decide (l ≤ L) && g) || decide (l < L)) = true) : l ≤ L := by
  rw [Bool.or_eq_true, Bool.and_eq_true] at h
  rcases h with ⟨h1, _⟩ | h
  · exact of_decide_eq_true h1
  · exact le_of_lt (of_decide_eq_true h)

lemma le_ite_ov (l L : ℤ) (g : Bool) :
    l ≤ (if (decide (l ≤ L) && g) || decide (l < L) then L else l) := by
  by_cases h : ((decide (l ≤ L) && g) || decide (l < L)) = true
  · rw [if_pos h]; exact ov_true_le L l g h
  · rw [if_neg h]

lemma foldCell_recLevLe (rf rs dx : Fl) (ml : ℤ) (t : Fl)
    (c : FrameCell) (s : CellState) :
    recLevLe s (foldCell rf rs dx ml t c s) :=
  ⟨le_ite_ov s.h_max_lev c.level (fgt c.h s.h_max),
   le_ite_ov s.h_min_lev c.level (flt c.h s.h_min),
   le_ite_ov s.m_max_lev c.level (fgt (mOf c) s.m_max),
   le_ite_ov s.vel_max_lev c.level (fgt (velOf c) s.vel_max),
   le_ite_ov s.mom_max_lev c.level (fgt (momOf rf rs dx c) s.mom_max),
   le_ite_ov s.eta_max_lev c.level (fgt c.eta s.eta_max),
   le_ite_ov s.froude_max_lev c.level (fgt (froudeOf c) s.froude_max)⟩

lemma recLevLe_refl (s : CellState) : recLevLe s s :=
  ⟨le_refl _, le_refl _, le_refl _, le_refl _, le_refl _, le_refl _, le_refl _⟩

lemma recLevLe_trans {a b c : CellState} (h1 : recLevLe a b) (h2 : recLevLe b c) :
    recLevLe a c := by
  obtain ⟨x1, x2, x3, x4, x5, x6, x7⟩ := h1
  obtain ⟨y1, y2, y3, y4, y5, y6, y7⟩ := h2
  exact ⟨le_trans x1 y1, le_trans x2 y2, le_trans x3 y3, le_trans x4 y4,
    le_trans x5 y5, le_trans x6 y6, le_trans x7 y7⟩

lemma seq_recLevLe (rf rs : Fl) (n i : ℕ) (hi : i < n) (fs : List Frame) :
    ∀ s : List CellState, s.length = n → (∀ f ∈ fs, f.cells.length = n) →
      recLevLe (s.getD i initCell) ((foldGridSeq rf rs s fs).getD i initCell) := by
  induction fs with
  | nil => intro s _ _; simp only [foldGridSeq, List.foldl_nil]; exact recLevLe_refl _
  | cons f fs ih =>
      intro s hs hf
      have hfc : f.cells.length = n := hf f (List.mem_cons_self f fs)
      have hstep := getD_foldGrid rf rs s f i (by omega) (by omega)
      have hlen : (foldGrid rf rs s f).length = n := by
        rw [length_foldGrid, hfc, hs, min_self]
      have h1 : recLevLe (s.getD i initCell)
          ((foldGrid rf rs s f).getD i initCell) := by
        rw [hstep]
        exact foldCell_recLevLe rf rs f.dx (maxLevelOf f) f.time
          (f.cells.getD i dummyCell) (s.getD i initCell)
      have h2 := ih (foldGrid rf rs s f) hlen
        (fun g hg => hf g (List.mem_cons_of_mem f hg))
      simp only [foldGridSeq, List.foldl_cons] at h2 ⊢
      exact recLevLe_trans h1 h2

/-- C10.  For every tracked quantity and every cell, the recorded level
is monotonically non-decreasing over successive folds: an overwrite only
ever happens at a level at least as fine as the one recorded (both mask
clauses require `frame.level ≥ Q_level`), so the recorded level of cell
`i` after folding any frame sequence is at least its level in the
starting state. -/
theorem record_level_monotone (rf rs : Fl) (n i : ℕ) (fs : List Frame)
    (s : List CellState) (hi : i < n) (hs : s.length = n)
    (hf : ∀ f ∈ fs, f.cells.length = n) :
    recLevLe (s.getD i initCell) ((foldGridSeq rf rs s fs).getD i initCell) :=
  seq_recLevLe rf rs n i hi fs s hs hf

theorem record_level_monotone_witness :
    recLevLe ((List.replicate 1 initCell).getD 0 initCell)
      ((foldGridSeq (Fl.fin 1000) (Fl.fin 2700) (List.replicate 1 initCell)
        [wFrame]).getD 0 initCell) :=
  record_level_monotone (Fl.fin 1000) (Fl.fin 2700) 1 0 [wFrame]
    (List.replicate 1 initCell) (by decide) rfl
    (by intro f hf; rw [List.mem_singleton] at hf; rw [hf]; rfl)

end Maxval
